import Mathlib

/-!
Verification of the Market-Finance-Agent service (src/main.py).

The program is a small FastAPI application: an RSS headline scraper tool,
a fixed 4-stage CrewAI summarization chain, a markdown cleaner, a sqlite
subscriber table, and an SMTP notification loop.  Strings are modelled as
lists of characters where character positions matter (the cleaner) and as
String values elsewhere; the sqlite table subscribers(email TEXT PRIMARY
KEY) is modelled as the list of its rows in insertion (rowid) order; the
ambient effects (feed transport, SMTP connectivity) are modelled as
explicit inputs.
-/

namespace MarketAgent

/-- Python str.strip removes leading and trailing whitespace.  This models
Python's whitespace test on the ASCII range (space, tab, newline, carriage
return, vertical tab, form feed), the cases exercised by the program. -/
def pyIsSpace (c : Char) : Bool :=
  c = ' ' || c = '\t' || c = '\n' || c = '\r' || c = '\x0B' || c = '\x0C'

/-- The character class of the third substitution in clean_markdown
(src/main.py line 98): asterisk, underscore, backtick, hash, greater-than,
hyphen.  Char.ofNat 96 is the backtick. -/
def stripChars : List Char :=
  ['*', '_', Char.ofNat 96, '#', '>', '-']

/-- Characters that survive the character-class deletion. -/
def notStripped (c : Char) : Bool :=
  !(stripChars.contains c)

/-- The attempt by the lazy group in the first substitution of
clean_markdown (line 96) to find the closing double asterisk: given the
text after an opening double asterisk, returns the shortest inner text
(a dot does not match a newline in Python) together with the text after
the closing marker, or none when no close is reachable.  The returned
value carries the decomposition it denotes, which the proofs below use. -/
def findBoldClose : (l : List Char) →
    Option { p : List Char × List Char // l = p.1 ++ '*' :: '*' :: p.2 }
  | [] => none
  | [_] => none
  | c1 :: c2 :: rest =>
    if h : c1 = '*' ∧ c2 = '*' then
      some ⟨([], rest), by rw [h.1, h.2]; rfl⟩
    else if c1 = '\n' then none
    else
      match findBoldClose (c2 :: rest) with
      | some ⟨(inner, rest2), hp⟩ =>
        some ⟨(c1 :: inner, rest2), by rw [List.cons_append, ← hp]⟩
      | none => none

/-- First substitution of clean_markdown (line 96): replace each
non-overlapping lazy match of double-asterisk bold markers by its inner
text, scanning left to right as Python re.sub does.  The fuel argument
only bounds the recursion; each step consumes at least one character, so
a fuel of the input length (subBold below) never runs out and the
zero-fuel case is unreachable. -/
def subBoldF : Nat → List Char → List Char
  | _, [] => []
  | _, [c] => [c]
  | 0, c1 :: c2 :: rest => c1 :: c2 :: rest
  | fuel + 1, c1 :: c2 :: rest =>
    if c1 = '*' ∧ c2 = '*' then
      match findBoldClose rest with
      | some ⟨(inner, rest2), _⟩ => inner ++ subBoldF fuel rest2
      | none => c1 :: subBoldF fuel (c2 :: rest)
    else c1 :: subBoldF fuel (c2 :: rest)

/-- The first substitution of clean_markdown at its full fuel. -/
def subBold (l : List Char) : List Char :=
  subBoldF l.length l

/-- Second substitution of clean_markdown (line 97): delete every maximal
run of at least two hash characters, as Python re.sub of a greedy
double-hash-plus pattern does.  Fuel as in subBoldF. -/
def subHashesF : Nat → List Char → List Char
  | _, [] => []
  | _, [c] => [c]
  | 0, c1 :: c2 :: rest => c1 :: c2 :: rest
  | fuel + 1, c1 :: c2 :: rest =>
    if c1 = '#' ∧ c2 = '#' then
      subHashesF fuel (rest.dropWhile (fun c => c = '#'))
    else c1 :: subHashesF fuel (c2 :: rest)

/-- The second substitution of clean_markdown at its full fuel. -/
def subHashes (l : List Char) : List Char :=
  subHashesF l.length l

/-- Remove the trailing run of characters satisfying p. -/
def dropTrailing (p : Char → Bool) (l : List Char) : List Char :=
  (l.reverse.dropWhile p).reverse

/-- Python str.strip (line 99): remove leading and trailing whitespace. -/
def pyStrip (l : List Char) : List Char :=
  dropTrailing pyIsSpace (l.dropWhile pyIsSpace)

/-- clean_markdown (src/main.py lines 95-99): the three substitutions in
order, then strip. -/
def clean_markdown (l : List Char) : List Char :=
  pyStrip ((subHashes (subBold l)).filter notStripped)

/-- The sqlite store: subscribers(email TEXT PRIMARY KEY), modelled as the
list of rows in insertion order.  The subscribe handler (lines 120-130)
attempts INSERT and swallows the IntegrityError raised on a duplicate
primary key, so the store changes only when the email is absent; sqlite
TEXT PRIMARY KEY comparison is byte-wise (BINARY collation), which String
equality models. -/
def addSubscriber (db : List String) (e : String) : List String :=
  if e ∈ db then db else db ++ [e]

/-- SELECT email FROM subscribers (line 139): all rows in rowid
(insertion) order. -/
def list_all (db : List String) : List String :=
  db

/-- The HTTP redirect returned by the subscribe handler (line 130). -/
structure HttpRedirect where
  status : Nat
  location : String
deriving DecidableEq

/-- The subscribe handler (lines 120-130): insert-or-ignore, then a 303
redirect to the root, on every path. -/
def subscribe (db : List String) (email : String) : List String × HttpRedirect :=
  (addSubscriber db email, ⟨303, "/"⟩)

/-- Outcome of a request to the subscribe route. -/
inductive SubscribeOutcome where
  | redirect (db : List String) (resp : HttpRedirect)
  | validationError (db : List String) (status : Nat)
deriving DecidableEq

/-- Modelled from the spec: the form contract of the subscribe route.  The
email parameter is declared as a required form field (line 121); the
validation that rejects a request missing it with a 422-class response
before the handler runs is FastAPI framework code, not part of
src/main.py, and is modelled here from the spec.  A present field reaches
the handler unchanged. -/
def subscribeRoute (db : List String) (form : Option String) : SubscribeOutcome :=
  match form with
  | none => .validationError db 422
  | some e => .redirect (subscribe db e).1 (subscribe db e).2

/-- A feed entry as the scraper reads it (title, link, published). -/
structure Headline where
  title : String
  link : String
  published : String
deriving DecidableEq

/-- The ambient outcome of feedparser.parse and the entry-field accesses
inside the try block of scrape_news: either the parsed entries, or an
exception carrying a message. -/
inductive FetchOutcome where
  | ok (entries : List Headline)
  | fault (msg : String)
deriving DecidableEq

/-- One element of the list scrape_news builds: an article record, or the
error record built in the except branch. -/
inductive ScrapeEntry where
  | article (title link published : String)
  | error (msg : String)
deriving DecidableEq

/-- scrape_news (src/main.py lines 31-45): on success, the first 10
entries as article records; on any exception, a single-element list
holding the error message, returned rather than raised. -/
def scrape_news (feed : FetchOutcome) : List ScrapeEntry :=
  match feed with
  | .ok entries => (entries.take 10).map (fun h => .article h.title h.link h.published)
  | .fault msg => [.error msg]

/-- One SMTP session as send_email performs it (lines 101-113): the with
block opens a fresh connection, negotiates STARTTLS, logs in, sends one
message to one recipient, and closes.  Each value of this type is one such
independent session; no connection object outlives a single send. -/
structure MailSession where
  recipient : String
  body : List Char
deriving DecidableEq

/-- The notification loop of run_daily_report (lines 143-144): one
send_email call per subscriber in order.  sendOk tells whether the SMTP
send to a given recipient succeeds; a raised send stops the loop at once
(no handler around it).  Returns the sessions attempted in order, and the
recipient whose send raised, if any. -/
def notify_all (sendOk : String → Bool) (body : List Char) :
    List String → List MailSession × Option String
  | [] => ([], none)
  | r :: rest =>
    if sendOk r then
      ((⟨r, body⟩ : MailSession) :: (notify_all sendOk body rest).1,
        (notify_all sendOk body rest).2)
    else ([⟨r, body⟩], some r)

/-- The JSON status payload of the send-daily route (line 146). -/
def successMsg : String :=
  "✅ Daily Market Briefing sent to all subscribers"

/-- run_daily_report (lines 132-146) after the crew call: clean the crew
output, read the subscriber list, loop over sends.  Returns the attempted
sessions, the propagated error (unhandled, surfaced to the caller of the
send-daily route), and the success payload returned only when the loop
finishes. -/
def run_daily_report (sendOk : String → Bool) (crewOutput : List Char)
    (db : List String) : List MailSession × Option String × Option String :=
  match notify_all sendOk (clean_markdown crewOutput) (list_all db) with
  | (sessions, none) => (sessions, none, some successMsg)
  | (sessions, some e) => (sessions, some e, none)

/-- Concrete emails and inputs used by the witnesses below. -/
def emailA : String := "a@x.com"

def emailB : String := "b@x.com"

def emailC : String := "c@x.com"

def emailUpperA : String := "A@x.com"

def emailPadded : String := " a@x.com"

def emailBad : String := "bad@x.com"

def demoSendOk (s : String) : Bool :=
  !(s == emailBad)

def allOk (_ : String) : Bool :=
  true

def demoBriefing : List Char :=
  ("Markets up 2% today.").data

def demoCrew : List Char :=
  ("**Markets** up 2% today.").data

def demoHeadline : Headline :=
  ⟨"t", "l", "p"⟩

def errMsg : String :=
  "boom"

/-! ## Helper lemmas about the cleaner -/

/-- The first substitution only deletes asterisks: any filter that already
discards asterisks cannot see its effect. -/
theorem filter_subBoldF (q : Char → Bool) (hq : q '*' = false) :
    ∀ fuel l, (subBoldF fuel l).filter q = l.filter q := by
  intro fuel
  induction fuel with
  | zero =>
    intro l
    rcases l with _ | ⟨c1, _ | ⟨c2, rest⟩⟩ <;> rfl
  | succ fuel ih =>
    intro l
    rcases l with _ | ⟨c1, _ | ⟨c2, rest⟩⟩
    · rfl
    · rfl
    · rw [subBoldF]
      by_cases h12 : c1 = '*' ∧ c2 = '*'
      · rw [if_pos h12]
        cases hfc : findBoldClose rest with
        | none =>
          obtain ⟨h1, h2⟩ := h12
          subst h1
          subst h2
          simp [List.filter_cons, hq, ih ('*' :: rest)]
        | some pr =>
          obtain ⟨⟨inner, rest2⟩, hp⟩ := pr
          rw [List.filter_append, ih rest2, h12.1, h12.2, hp]
          simp [List.filter_cons, List.filter_append, hq]
      · rw [if_neg h12]
        simp only [List.filter_cons, ih (c2 :: rest)]

/-- Dropping a leading hash run is invisible to a filter that discards
hashes. -/
theorem filter_dropWhile_hash (q : Char → Bool) (hq : q '#' = false) :
    ∀ l : List Char, ((l.dropWhile (fun c => c = '#')).filter q) = l.filter q := by
  intro l
  induction l with
  | nil => rfl
  | cons c rest ih =>
    by_cases hc : c = '#'
    · subst hc
      rw [List.dropWhile_cons]
      simp [List.filter_cons, hq, ih]
    · rw [List.dropWhile_cons]
      simp [hc]

/-- The second substitution only deletes hashes: any filter that already
discards hashes cannot see its effect. -/
theorem filter_subHashesF (q : Char → Bool) (hq : q '#' = false) :
    ∀ fuel l, (subHashesF fuel l).filter q = l.filter q := by
  intro fuel
  induction fuel with
  | zero =>
    intro l
    rcases l with _ | ⟨c1, _ | ⟨c2, rest⟩⟩ <;> rfl
  | succ fuel ih =>
    intro l
    rcases l with _ | ⟨c1, _ | ⟨c2, rest⟩⟩
    · rfl
    · rfl
    · rw [subHashesF]
      by_cases h12 : c1 = '#' ∧ c2 = '#'
      · rw [if_pos h12]
        rw [ih (rest.dropWhile (fun c => c = '#')), filter_dropWhile_hash q hq]
        simp [List.filter_cons, h12.1, h12.2, hq]
      · rw [if_neg h12]
        simp only [List.filter_cons, ih (c2 :: rest)]

/-- The two regex substitutions delete only characters the character-class
deletion removes anyway, so the cleaner is the character-class deletion
followed by the strip. -/
theorem clean_markdown_eq (l : List Char) :
    clean_markdown l = pyStrip (l.filter notStripped) := by
  unfold clean_markdown subHashes subBold
  rw [filter_subHashesF notStripped (by decide) _ _,
    filter_subBoldF notStripped (by decide) _ _]

/-- The head surviving dropWhile fails the dropped predicate. -/
theorem dropWhile_head_false (p : Char → Bool) :
    ∀ (l : List Char) (b : Char) (r : List Char),
      l.dropWhile p = b :: r → p b = false := by
  intro l
  induction l with
  | nil =>
    intro b r h
    simp at h
  | cons c rest ih =>
    intro b r h
    rw [List.dropWhile_cons] at h
    by_cases hc : p c = true
    · rw [if_pos hc] at h
      exact ih b r h
    · rw [if_neg hc] at h
      cases h
      exact Bool.not_eq_true _ |>.mp hc

/-- dropWhile cannot cross a character failing the predicate. -/
theorem dropWhile_append_cons (p : Char → Bool) (c : Char) (hc : p c = false) :
    ∀ (a x : List Char), (a ++ c :: x).dropWhile p = a.dropWhile p ++ c :: x := by
  intro a
  induction a with
  | nil =>
    intro x
    simp [List.dropWhile_cons, hc]
  | cons e a ih =>
    intro x
    rw [List.cons_append, List.dropWhile_cons, List.dropWhile_cons]
    by_cases he : p e = true
    · rw [if_pos he, if_pos he, ih]
    · rw [if_neg he, if_neg he, List.cons_append]

/-- dropTrailing cannot cross a character failing the predicate. -/
theorem dropTrailing_append_cons (p : Char → Bool) (c : Char) (hc : p c = false)
    (y b : List Char) :
    dropTrailing p (y ++ c :: b) = y ++ c :: dropTrailing p b := by
  unfold dropTrailing
  rw [List.reverse_append, List.reverse_cons, List.append_assoc,
    List.singleton_append, dropWhile_append_cons p c hc,
    List.reverse_append, List.reverse_cons, List.reverse_reverse]
  simp [List.append_assoc]

/-- The strip only removes characters from the two ends. -/
theorem pyStrip_sublist (l : List Char) : (pyStrip l).Sublist l := by
  unfold pyStrip dropTrailing
  have h2 : (((l.dropWhile pyIsSpace).reverse.dropWhile pyIsSpace)).Sublist
      (l.dropWhile pyIsSpace).reverse := List.dropWhile_sublist _
  have h3 := h2.reverse
  rw [List.reverse_reverse] at h3
  exact h3.trans (List.dropWhile_sublist _)

/-- Every character of the cleaner output survives the character-class
filter. -/
theorem mem_clean_markdown (s : List Char) (x : Char)
    (hx : x ∈ clean_markdown s) : notStripped x = true := by
  rw [clean_markdown_eq] at hx
  exact List.of_mem_filter ((pyStrip_sublist _).subset hx)

/-- The first character of a stripped string is not whitespace. -/
theorem pyStrip_head (l : List Char) :
    pyIsSpace ((pyStrip l).head?.getD 'A') = false := by
  unfold pyStrip
  cases hm : l.dropWhile pyIsSpace with
  | nil => decide
  | cons b r =>
    have hb : pyIsSpace b = false := dropWhile_head_false _ _ _ _ hm
    have h1 : dropTrailing pyIsSpace (b :: r) = b :: dropTrailing pyIsSpace r := by
      have h2 := dropTrailing_append_cons pyIsSpace b hb [] r
      simpa using h2
    rw [h1]
    simpa using hb

/-- The last character of a stripped string is not whitespace. -/
theorem pyStrip_last (l : List Char) :
    pyIsSpace ((pyStrip l).getLast?.getD 'A') = false := by
  unfold pyStrip dropTrailing
  rw [List.getLast?_reverse]
  cases hm : (l.dropWhile pyIsSpace).reverse.dropWhile pyIsSpace with
  | nil => decide
  | cons b r =>
    have hb : pyIsSpace b = false := dropWhile_head_false _ _ _ _ hm
    simpa using hb

/-- A block with non-whitespace endpoints survives the strip intact. -/
theorem pyStrip_block (c d : Char) (hc : pyIsSpace c = false)
    (hd : pyIsSpace d = false) (a ms b : List Char) :
    ∃ u v, pyStrip (a ++ (c :: ms ++ [d]) ++ b) = u ++ (c :: ms ++ [d]) ++ v := by
  refine ⟨a.dropWhile pyIsSpace, dropTrailing pyIsSpace b, ?_⟩
  unfold pyStrip
  have h1 : a ++ (c :: ms ++ [d]) ++ b = a ++ c :: (ms ++ d :: b) := by
    simp [List.append_assoc]
  rw [h1, dropWhile_append_cons _ c hc]
  have h2 : a.dropWhile pyIsSpace ++ c :: (ms ++ d :: b)
      = (a.dropWhile pyIsSpace ++ c :: ms) ++ d :: b := by
    simp [List.append_assoc]
  rw [h2, dropTrailing_append_cons _ d hd]
  simp [List.append_assoc]

/-- The notification loop walks an all-succeeding leading segment in
order, one session per recipient, before whatever the rest produces. -/
theorem notify_all_ok_append (sendOk : String → Bool) (body : List Char) :
    ∀ (pre rs : List String), (∀ x ∈ pre, sendOk x = true) →
      notify_all sendOk body (pre ++ rs)
        = ((pre.map fun x => MailSession.mk x body) ++ (notify_all sendOk body rs).1,
            (notify_all sendOk body rs).2) := by
  intro pre
  induction pre with
  | nil =>
    intro rs h
    simp
  | cons x pre ih =>
    intro rs h
    have hx : sendOk x = true := h x (by simp)
    rw [List.cons_append]
    rw [notify_all, if_pos hx, ih rs (fun y hy => h y (by simp [hy]))]
    simp

/-! ## The claims -/

/-- C1: subscribing the same email twice leaves exactly one row for that
email: add is idempotent, preserves uniqueness of the email column, and
after add the email occurs exactly once. -/
theorem subscribe_add_idempotent_unique (db : List String) (e : String)
    (h : db.Nodup) :
    addSubscriber (addSubscriber db e) e = addSubscriber db e ∧
    (addSubscriber db e).Nodup ∧
    (addSubscriber db e).count e = 1 := by
  by_cases he : e ∈ db
  · have h1 : addSubscriber db e = db := by simp [addSubscriber, he]
    refine ⟨by rw [h1, h1], by rw [h1]; exact h, ?_⟩
    rw [h1]
    have h2 := List.nodup_iff_count_le_one.mp h e
    have h3 : 0 < db.count e := List.count_pos_iff.mpr he
    omega
  · have h1 : addSubscriber db e = db ++ [e] := by simp [addSubscriber, he]
    have hmem : e ∈ db ++ [e] := by simp
    refine ⟨by rw [h1]; simp [addSubscriber, hmem], ?_, ?_⟩
    · rw [h1, List.nodup_append]
      refine ⟨h, List.nodup_singleton e, ?_⟩
      intro a ha hb
      rw [List.mem_singleton] at hb
      subst hb
      exact he ha
    · rw [h1, List.count_append]
      have h0 : db.count e = 0 := List.count_eq_zero.mpr he
      simp [h0]

/-- Witness for C1 at a concrete store and email. -/
theorem subscribe_add_idempotent_unique_witness :
    addSubscriber (addSubscriber [emailA] emailB) emailB
      = addSubscriber [emailA] emailB ∧
    (addSubscriber [emailA] emailB).Nodup ∧
    (addSubscriber [emailA] emailB).count emailB = 1 :=
  subscribe_add_idempotent_unique [emailA] emailB (by decide)

/-- C2: the cleaner is a total function whose output contains none of the
six stripped marker characters and has no leading or trailing
whitespace. -/
theorem clean_markdown_no_markers_trimmed (s : List Char) :
    (clean_markdown s).all notStripped = true ∧
    pyIsSpace ((clean_markdown s).head?.getD 'A') = false ∧
    pyIsSpace ((clean_markdown s).getLast?.getD 'A') = false := by
  refine ⟨?_, ?_, ?_⟩
  · rw [List.all_eq_true]
    intro x hx
    exact mem_clean_markdown s x hx
  · rw [clean_markdown_eq]
    exact pyStrip_head _
  · rw [clean_markdown_eq]
    exact pyStrip_last _

/-- C3: a raised send aborts the loop: every recipient before the first
failing one gets a session, the failing one is attempted, nobody after it
is, the error propagates to the send-daily caller and no success payload
is produced. -/
theorem notify_loop_aborts_at_first_failure (sendOk : String → Bool)
    (crewOutput : List Char) (pre post : List String) (r : String)
    (h1 : ∀ x ∈ pre, sendOk x = true) (h2 : sendOk r = false) :
    run_daily_report sendOk crewOutput (pre ++ r :: post)
      = ((pre.map fun x => MailSession.mk x (clean_markdown crewOutput))
          ++ [MailSession.mk r (clean_markdown crewOutput)], some r, none) := by
  unfold run_daily_report list_all
  rw [notify_all_ok_append sendOk _ pre (r :: post) h1]
  rw [notify_all, if_neg (by simp [h2])]

/-- Witness for C3: three subscribers, the second send raises, the third
is never attempted. -/
theorem notify_loop_aborts_witness :
    run_daily_report demoSendOk demoCrew ([emailA] ++ emailBad :: [emailC])
      = ([MailSession.mk emailA (clean_markdown demoCrew),
          MailSession.mk emailBad (clean_markdown demoCrew)], some emailBad, none) :=
  notify_loop_aborts_at_first_failure demoSendOk demoCrew [emailA] [emailC]
    emailBad (by decide) (by decide)

/-- C4: when no send fails the notifier attempts exactly one session per
recipient, in list order, all carrying the same cleaned briefing, and the
route reports success. -/
theorem notify_all_success_sessions (sendOk : String → Bool)
    (crewOutput : List Char) (db : List String)
    (h : ∀ x ∈ db, sendOk x = true) :
    run_daily_report sendOk crewOutput db
      = (db.map (fun x => MailSession.mk x (clean_markdown crewOutput)), none,
          some successMsg) ∧
    (run_daily_report sendOk crewOutput db).1.length = db.length := by
  have hmain : notify_all sendOk (clean_markdown crewOutput) db
      = (db.map fun x => MailSession.mk x (clean_markdown crewOutput), none) := by
    have h1 := notify_all_ok_append sendOk (clean_markdown crewOutput) db [] h
    simpa [notify_all] using h1
  have hrun : run_daily_report sendOk crewOutput db
      = (db.map (fun x => MailSession.mk x (clean_markdown crewOutput)), none,
          some successMsg) := by
    unfold run_daily_report list_all
    rw [hmain]
  exact ⟨hrun, by rw [hrun]; simp⟩

/-- Witness for C4: the two-subscriber scenario of the spec: exactly two
sessions, same body. -/
theorem notify_all_success_sessions_witness :
    run_daily_report allOk demoBriefing [emailA, emailB]
      = ([MailSession.mk emailA (clean_markdown demoBriefing),
          MailSession.mk emailB (clean_markdown demoBriefing)], none,
          some successMsg) ∧
    (run_daily_report allOk demoBriefing [emailA, emailB]).1.length = 2 :=
  notify_all_success_sessions allOk demoBriefing [emailA, emailB] (by decide)

/-- C5: the headline fetcher never raises: a fault becomes a one-element
error list, success yields at most the first 10 entries as records. -/
theorem scrape_news_never_raises (feed : FetchOutcome) :
    (∀ msg, feed = FetchOutcome.fault msg →
      scrape_news feed = [ScrapeEntry.error msg]) ∧
    (∀ entries, feed = FetchOutcome.ok entries →
      scrape_news feed
        = (entries.take 10).map
            (fun h => ScrapeEntry.article h.title h.link h.published) ∧
      (scrape_news feed).length ≤ 10) := by
  constructor
  · intro msg hm
    subst hm
    rfl
  · intro entries hm
    subst hm
    refine ⟨rfl, ?_⟩
    simp [scrape_news, List.length_take]

/-- Witness for C5 at a concrete fault and a concrete feed. -/
theorem scrape_news_never_raises_witness :
    scrape_news (FetchOutcome.fault errMsg) = [ScrapeEntry.error errMsg] ∧
    scrape_news (FetchOutcome.ok [demoHeadline])
      = [ScrapeEntry.article demoHeadline.title demoHeadline.link
          demoHeadline.published] :=
  ⟨(scrape_news_never_raises (FetchOutcome.fault errMsg)).1 errMsg rfl,
    ((scrape_news_never_raises (FetchOutcome.ok [demoHeadline])).2
      [demoHeadline] rfl).1⟩

/-- C6: the subscribe handler answers a 303 redirect to the root on every
path, and on an already-present email the store is unchanged. -/
theorem subscribe_redirect_regardless (db : List String) (e : String) :
    (subscribe db e).2 = ⟨303, "/"⟩ ∧
    (e ∈ db → (subscribe db e).1 = db) := by
  refine ⟨rfl, fun h => ?_⟩
  simp [subscribe, addSubscriber, h]

/-- Witness for C6: resubscribing an existing email is answered 303 and
leaves the store as it was. -/
theorem subscribe_redirect_regardless_witness :
    (subscribe [emailA] emailA).2 = ⟨303, "/"⟩ ∧
    (subscribe [emailA] emailA).1 = [emailA] :=
  ⟨(subscribe_redirect_regardless [emailA] emailA).1,
    (subscribe_redirect_regardless [emailA] emailA).2 (by decide)⟩

/-- C7 counterexample: the input holds the bold span with inner text a-b
(no asterisks), yet the output ab does not contain a-b: the hyphen inside
the bold content is deleted, so the inner content is not preserved as
claimed. -/
theorem bold_inner_not_preserved_cex :
    clean_markdown ['*', '*', 'a', '-', 'b', '*', '*'] = ['a', 'b'] ∧
    ¬ ∃ u v : List Char, ['a', 'b'] = u ++ ['a', '-', 'b'] ++ v := by
  refine ⟨by decide, ?_⟩
  rintro ⟨u, v, h⟩
  have hlen := congrArg List.length h
  simp [List.length_append] at hlen
  omega

/-- C7 amended: the bold markers themselves are deleted and the inner
content is kept exactly as the cleaner would keep it without the markers:
cleaning an input with a bold span equals cleaning the input with the four
asterisks removed, and the output has no asterisks. -/
theorem bold_markers_deleted_inner_cleaned (l text r : List Char) :
    clean_markdown (l ++ ('*' :: '*' :: text) ++ ('*' :: '*' :: r))
      = clean_markdown (l ++ text ++ r) ∧
    (clean_markdown (l ++ ('*' :: '*' :: text) ++ ('*' :: '*' :: r))).all
      (fun c => !(c == '*')) = true := by
  constructor
  · rw [clean_markdown_eq, clean_markdown_eq]
    simp [List.filter_append, List.filter_cons,
      show notStripped '*' = false by decide]
  · rw [List.all_eq_true]
    intro x hx
    have h1 := mem_clean_markdown _ x hx
    by_cases h2 : x = '*'
    · subst h2
      exact absurd h1 (by decide)
    · simp [h2]

/-- C8: a request to the subscribe route with no email form field is
rejected with a 422 response and the store gains no row. -/
theorem subscribe_missing_email_rejected (db : List String) :
    subscribeRoute db none = SubscribeOutcome.validationError db 422 :=
  rfl

/-- C9: uniqueness is byte-wise string equality with no normalization:
any two distinct email strings, such as ones differing only in case or in
surrounding whitespace, are both inserted and both listed. -/
theorem store_byte_equality_no_normalization (e1 e2 : String) (h : e1 ≠ e2) :
    e1 ∈ list_all (addSubscriber (addSubscriber [] e1) e2) ∧
    e2 ∈ list_all (addSubscriber (addSubscriber [] e1) e2) ∧
    (list_all (addSubscriber (addSubscriber [] e1) e2)).length = 2 := by
  have h1 : addSubscriber [] e1 = [e1] := by simp [addSubscriber]
  have h2 : addSubscriber [e1] e2 = [e1, e2] := by
    have hne : ¬ e2 ∈ [e1] := by
      simp only [List.mem_singleton]
      exact fun hh => h hh.symm
    rw [addSubscriber, if_neg hne]
    rfl
  rw [h1, h2]
  refine ⟨by simp [list_all], by simp [list_all], by simp [list_all]⟩

/-- Witness for C9 at the two pairs of the claim: a case-differing pair
and a whitespace-differing pair each yield two rows. -/
theorem store_byte_equality_no_normalization_witness :
    (emailUpperA ∈ list_all (addSubscriber (addSubscriber [] emailUpperA) emailA) ∧
      emailA ∈ list_all (addSubscriber (addSubscriber [] emailUpperA) emailA) ∧
      (list_all (addSubscriber (addSubscriber [] emailUpperA) emailA)).length = 2) ∧
    (emailPadded ∈ list_all (addSubscriber (addSubscriber [] emailPadded) emailA) ∧
      emailA ∈ list_all (addSubscriber (addSubscriber [] emailPadded) emailA) ∧
      (list_all (addSubscriber (addSubscriber [] emailPadded) emailA)).length = 2) :=
  ⟨store_byte_equality_no_normalization emailUpperA emailA (by decide),
    store_byte_equality_no_normalization emailPadded emailA (by decide)⟩

/-- C10: the cleaner deletes the six marker characters wherever they
occur, markup or not: every output is free of them, and a 7-10 range or a
-2% figure anywhere in the input loses its hyphen, leaving 710 and 2% in
the output. -/
theorem cleaner_deletes_inside_words (s l r : List Char) :
    (clean_markdown s).all notStripped = true ∧
    (∃ u v, clean_markdown (l ++ ['7', '-', '1', '0'] ++ r)
      = u ++ ['7', '1', '0'] ++ v) ∧
    (∃ u v, clean_markdown (l ++ ['-', '2', '%'] ++ r)
      = u ++ ['2', '%'] ++ v) := by
  refine ⟨?_, ?_, ?_⟩
  · rw [List.all_eq_true]
    intro x hx
    exact mem_clean_markdown s x hx
  · rw [clean_markdown_eq, List.filter_append, List.filter_append,
      show List.filter notStripped ['7', '-', '1', '0'] = ['7', '1', '0'] by decide]
    have h1 := pyStrip_block '7' '0' (by decide) (by decide)
      (List.filter notStripped l) ['1'] (List.filter notStripped r)
    simpa using h1
  · rw [clean_markdown_eq, List.filter_append, List.filter_append,
      show List.filter notStripped ['-', '2', '%'] = ['2', '%'] by decide]
    have h1 := pyStrip_block '2' '%' (by decide) (by decide)
      (List.filter notStripped l) [] (List.filter notStripped r)
    simpa using h1

end MarketAgent
